import Mathlib

set_option maxRecDepth 100000

/-
  Shallow embedding of the rgrep command-line argument parser
  (src/main.rs of srknzl/rgrep).

  Strings are modelled by Lean's `String` (logically a list of `Char`,
  matching Rust's sequence-of-chars view used by `starts_with`,
  `split('=')` and `parse::<u32>()`).  The mutable `CommandArgs` struct
  threaded by `&mut` in Rust becomes explicit state passing.  The
  `u32` fields become `Nat` with the parser enforcing the `< 2^32`
  bound exactly where Rust's `parse::<u32>()` does.  `exit(0)` after
  `print_help()` and the out-of-bounds panic of slice indexing are
  modelled as distinguished outcome constructors.
-/

namespace Rgrep

/-- The `CommandArgs` struct of main.rs (files, query, after_context,
    before_context, ignore_case), with `u32` as bounded `Nat`. -/
structure CommandArgs where
  files : List String
  query : String
  after_context : Nat
  before_context : Nat
  ignore_case : Bool
deriving Repr, DecidableEq

/-- The initial value built at the top of `main`. -/
def initCommandArgs : CommandArgs :=
  { files := [], query := "", after_context := 0, before_context := 0, ignore_case := false }

/-- Rust `arg.starts_with(pat)` for a string pattern: char-list prefix test. -/
def starts_with (s : String) (pat : String) : Bool :=
  pat.data.isPrefixOf s.data

/-- Rust `s.split(c).collect::<Vec<_>>()`: split a char list at every
    occurrence of `c`; always returns at least one (possibly empty) piece. -/
def splitOnChar (c : Char) : List Char → List (List Char)
  | [] => [[]]
  | x :: xs =>
    if x = c then [] :: splitOnChar c xs
    else
      match splitOnChar c xs with
      | [] => [[x]]
      | h :: t => (x :: h) :: t

/-- Rust `value.parse::<u32>()`: optional leading `+`, then one or more
    ASCII digits, value below 2^32; anything else is a parse error. -/
def parseU32 (value : String) : Option Nat :=
  let ds :=
    match value.data with
    | '+' :: rest => rest
    | l => l
  if ds.isEmpty then none
  else if ds.all Char.isDigit then
    let v := ds.foldl (fun acc c => acc * 10 + (c.toNat - 48)) 0
    if v < 4294967296 then some v else none
  else none

/-- The `option_error_string` helper of main.rs. -/
def option_error_string (opt : String) (value : String) : String :=
  "Option " ++ opt ++ " got invalid value: " ++ value

/-- The `parse_flag` function of main.rs: flags are options that do not
    take a value.  Matches the *undashed* names `i` / `ignore-case`. -/
def parse_flag (opt : String) (command_args : CommandArgs) : Except String CommandArgs :=
  if opt = "i" ∨ opt = "ignore-case" then
    Except.ok { command_args with ignore_case := true }
  else
    Except.error ("Unexpected flag " ++ opt)

/-- The `parse_non_flag` function of main.rs: options that take values.
    Matches the *undashed* names `A`/`after-context`, `B`/`before-context`. -/
def parse_non_flag (opt : String) (value : String) (command_args : CommandArgs) :
    Except String CommandArgs :=
  if opt = "A" ∨ opt = "after-context" then
    match parseU32 value with
    | none => Except.error (option_error_string opt value)
    | some v => Except.ok { command_args with after_context := v }
  else if opt = "B" ∨ opt = "before-context" then
    match parseU32 value with
    | none => Except.error (option_error_string opt value)
    | some v => Except.ok { command_args with before_context := v }
  else
    Except.error ("Unexpected option " ++ opt)

/-- Result of `requires_value` in main.rs: it can answer the arity
    question, report an unknown option, or (for `-h`/`--help`) print the
    help text and `exit(0)` -- the latter is the `helpExit` constructor. -/
inductive RVResult where
  | val : Bool → RVResult
  | helpExit : RVResult
  | err : String → RVResult
deriving Repr, DecidableEq

/-- The `requires_value` function of main.rs.  It matches the *dashed*
    forms, unlike `parse_flag` / `parse_non_flag`. -/
def requires_value (opt : String) : RVResult :=
  if opt = "-A" ∨ opt = "--after-context" then RVResult.val true
  else if opt = "-B" ∨ opt = "--before-context" then RVResult.val true
  else if opt = "-i" ∨ opt = "--ignore-case" then RVResult.val false
  else if opt = "-h" ∨ opt = "--help" then RVResult.helpExit
  else RVResult.err ("Unexpected option " ++ opt)

/-- The `OptionType` enum of main.rs. -/
inductive OptionType where
  | FLAG : OptionType
  | NONFLAG : OptionType
deriving Repr, DecidableEq

/-- Outcome of a parsing computation: ordinary success, an error string,
    the help-and-exit path, or an out-of-bounds indexing panic. -/
inductive ParseResult (α : Type) where
  | ok : α → ParseResult α
  | err : String → ParseResult α
  | help : ParseResult α
  | panic : ParseResult α
deriving Repr, DecidableEq

/-- Whether a `ParseResult` is the out-of-bounds panic. -/
def ParseResult.isPanic : ParseResult α → Bool
  | ParseResult.panic => true
  | _ => false

/-- The `parse_nonflag_or_flag` function of main.rs.  The lookahead
    `args[index + 1]` is modelled by `args[index + 1]?`, with the `none`
    case mapped to `panic` (Rust slice indexing would panic there). -/
def parse_nonflag_or_flag (argument : String) (args_length : Nat) (index : Nat)
    (args : List String) (command_args : CommandArgs) :
    ParseResult (OptionType × CommandArgs) :=
  match requires_value argument with
  | RVResult.helpExit => ParseResult.help
  | RVResult.err e => ParseResult.err e
  | RVResult.val rv =>
    if rv = true ∧ index + 1 < args_length then
      match args[index + 1]? with
      | none => ParseResult.panic
      | some v =>
        match parse_non_flag argument v command_args with
        | Except.ok ca => ParseResult.ok (OptionType.NONFLAG, ca)
        | Except.error e => ParseResult.err e
    else if rv = false then
      match parse_flag argument command_args with
      | Except.ok ca => ParseResult.ok (OptionType.FLAG, ca)
      | Except.error e => ParseResult.err e
    else
      ParseResult.err ("Option " ++ argument ++ " requires value but no value is passed")

/-- What one iteration of the `while` loop of `parse_args` decides:
    continue at a new index with updated state, or stop. -/
inductive StepResult where
  | next : Nat → Bool → CommandArgs → StepResult
  | abort : String → StepResult
  | helpExit : StepResult
  | panicked : StepResult
deriving Repr, DecidableEq

/-- The body of the `while` loop of `parse_args` in main.rs, for the
    current token `arg = args[index]`. -/
def parse_args_step (args : List String) (index : Nat) (query_parsed : Bool)
    (command_args : CommandArgs) (arg : String) : StepResult :=
  if query_parsed then
    StepResult.next (index + 1) query_parsed
      { command_args with files := command_args.files ++ [arg] }
  else if starts_with arg "--" then
    match splitOnChar '=' arg.data with
    | [_] =>
      match parse_nonflag_or_flag arg args.length index args command_args with
      | ParseResult.ok (OptionType.NONFLAG, ca) => StepResult.next (index + 2) query_parsed ca
      | ParseResult.ok (OptionType.FLAG, ca) => StepResult.next (index + 1) query_parsed ca
      | ParseResult.err e => StepResult.abort e
      | ParseResult.help => StepResult.helpExit
      | ParseResult.panic => StepResult.panicked
    | [left, right] =>
      match parse_non_flag ⟨left⟩ ⟨right⟩ command_args with
      | Except.ok ca => StepResult.next (index + 1) query_parsed ca
      | Except.error e => StepResult.abort e
    | _ => StepResult.abort ("Option " ++ arg ++ " has more than one equal sign")
  else if starts_with arg "-" then
    match parse_nonflag_or_flag arg args.length index args command_args with
    | ParseResult.ok (OptionType.NONFLAG, ca) => StepResult.next (index + 2) query_parsed ca
    | ParseResult.ok (OptionType.FLAG, ca) => StepResult.next (index + 1) query_parsed ca
    | ParseResult.err e => StepResult.abort e
    | ParseResult.help => StepResult.helpExit
    | ParseResult.panic => StepResult.panicked
  else
    StepResult.next (index + 1) true { command_args with query := arg }

/-- The `while index < args.len()` loop of `parse_args`.  The loop exit
    is the `args[index]? = none` test (exactly `index < args.len()`
    failing); `fuel` only bounds the number of iterations for structural
    recursion and is always at least `args.length - index`, so the
    fuel-exhausted arm coincides with the loop exit. -/
def parse_args_loop (args : List String) (fuel : Nat) (index : Nat)
    (query_parsed : Bool) (command_args : CommandArgs) : ParseResult CommandArgs :=
  match fuel with
  | 0 => ParseResult.ok command_args
  | f + 1 =>
    match args[index]? with
    | none => ParseResult.ok command_args
    | some arg =>
      match parse_args_step args index query_parsed command_args arg with
      | StepResult.next index2 qp2 ca2 => parse_args_loop args f index2 qp2 ca2
      | StepResult.abort e => ParseResult.err e
      | StepResult.helpExit => ParseResult.help
      | StepResult.panicked => ParseResult.panic

/-- The `parse_args` function of main.rs: scan from index 1 (index 0 is
    the program name), query not yet parsed. -/
def parse_args (args : List String) (command_args : CommandArgs) : ParseResult CommandArgs :=
  parse_args_loop args args.length 1 false command_args

/-- Outcome of `main` in main.rs: error printed to stderr with exit 1,
    help printed with exit 0, or the success path printing the parsed
    arguments. -/
inductive MainOutcome where
  | exitErr : String → MainOutcome
  | exitHelp : MainOutcome
  | success : CommandArgs → MainOutcome
  | panicked : MainOutcome
deriving Repr, DecidableEq

/-- The `main` function of main.rs, as a function of the argument list. -/
def mainOutcome (args : List String) : MainOutcome :=
  match parse_args args initCommandArgs with
  | ParseResult.ok ca => MainOutcome.success ca
  | ParseResult.err e => MainOutcome.exitErr e
  | ParseResult.help => MainOutcome.exitHelp
  | ParseResult.panic => MainOutcome.panicked

/-- One option row of the help metadata in `print_help` (named
    `Option` in main.rs; renamed here to avoid the builtin name). -/
structure OptionSpec where
  short_form : String
  long_form : String
  default_value : String
  description : String

/-- One category of the help metadata in `print_help`. -/
structure Category where
  name : String
  options : List OptionSpec

/-- The `categories` vector built inside `print_help`. -/
def help_categories : List Category :=
  [ { name := "Pattern selection and interpretation",
      options :=
        [ { short_form := "-i", long_form := "--ignore-case",
            default_value := "false",
            description := "ignore case distinctions in patterns and data" } ] },
    { name := "Context control",
      options :=
        [ { short_form := "-A", long_form := "--after-context=NUM",
            default_value := "0",
            description := "print NUM lines of trailing context" },
          { short_form := "-B", long_form := "--before-context=NUM",
            default_value := "0",
            description := "print NUM lines of leading context" } ] } ]

/-- One option line of the help text, following the format string of
    `print_help`. -/
def option_help_line (o : OptionSpec) : String :=
  "  " ++ o.short_form ++ ", " ++ o.long_form ++ "  " ++ o.description
    ++ "(default " ++ o.default_value ++ ")\n"

/-- One category block of the help text. -/
def category_help (c : Category) : String :=
  c.options.foldl (fun acc o => acc ++ option_help_line o) (c.name ++ ":\n") ++ "\n"

/-- The complete help text assembled by `print_help` in main.rs. -/
def help_string : String :=
  help_categories.foldl (fun acc c => acc ++ category_help c)
    ("Usage: rgrep [OPTION..] PATTERN FILE [FILE..]\n"
      ++ "Search for PATTERNS in eacn FILE.\n"
      ++ "Example: rgrep -i \x27hello world\x27 menu.h main.c\n"
      ++ "\n")

/-- Substring test on char lists: `pat` occurs somewhere in `s`. -/
def containsSub (pat : List Char) : List Char → Bool
  | [] => pat.isEmpty
  | c :: rest => pat.isPrefixOf (c :: rest) || containsSub pat rest

/-- Substring test on strings. -/
def str_contains (s : String) (pat : String) : Bool :=
  containsSub pat.data s.data

/-- If `requires_value` answers `val true`, the token is one of the four
    dashed value-taking forms. -/
lemma requires_value_val_true (opt : String) (h : requires_value opt = RVResult.val true) :
    opt = "-A" ∨ opt = "--after-context" ∨ opt = "-B" ∨ opt = "--before-context" := by
  unfold requires_value at h
  split_ifs at h with h1 h2 h3 h4 <;> tauto

/-- If `requires_value` answers `val false`, the token is a dashed flag form. -/
lemma requires_value_val_false (opt : String) (h : requires_value opt = RVResult.val false) :
    opt = "-i" ∨ opt = "--ignore-case" := by
  unfold requires_value at h
  split_ifs at h with h1 h2 h3 h4 <;> tauto

/-- A token whose first char is a dash never matches the undashed names
    of `parse_flag`, so `parse_flag` rejects it. -/
lemma parse_flag_dash (opt : String) (ho : opt.data.head? = some '-') (ca : CommandArgs) :
    parse_flag opt ca = Except.error ("Unexpected flag " ++ opt) := by
  have h1 : ¬(opt = "i" ∨ opt = "ignore-case") := by
    rintro (rfl | rfl) <;> exact absurd ho (by decide)
  simp only [parse_flag, if_neg h1]

/-- A token whose first char is a dash never matches the undashed names
    of `parse_non_flag`, so `parse_non_flag` rejects it whatever the value. -/
lemma parse_non_flag_dash (opt : String) (ho : opt.data.head? = some '-') (v : String)
    (ca : CommandArgs) :
    parse_non_flag opt v ca = Except.error ("Unexpected option " ++ opt) := by
  have h1 : ¬(opt = "A" ∨ opt = "after-context") := by
    rintro (rfl | rfl) <;> exact absurd ho (by decide)
  have h2 : ¬(opt = "B" ∨ opt = "before-context") := by
    rintro (rfl | rfl) <;> exact absurd ho (by decide)
  simp only [parse_non_flag, if_neg h1, if_neg h2]

/-- Behaviour of `parse_nonflag_or_flag` when the option takes a value
    and a following token exists: that token is consumed as the value. -/
lemma parse_nonflag_or_flag_val_true_next (argument : String) (args : List String)
    (index : Nat) (ca : CommandArgs) (v : String)
    (hrv : requires_value argument = RVResult.val true)
    (hv : args[index + 1]? = some v) :
    parse_nonflag_or_flag argument args.length index args ca =
      match parse_non_flag argument v ca with
      | Except.ok ca2 => ParseResult.ok (OptionType.NONFLAG, ca2)
      | Except.error e => ParseResult.err e := by
  have hlt : index + 1 < args.length := (List.getElem?_eq_some.mp hv).1
  unfold parse_nonflag_or_flag
  rw [hrv]
  show (if true = true ∧ index + 1 < args.length then
          match args[index + 1]? with
          | none => ParseResult.panic
          | some v2 =>
            match parse_non_flag argument v2 ca with
            | Except.ok ca2 => ParseResult.ok (OptionType.NONFLAG, ca2)
            | Except.error e => ParseResult.err e
        else if (true : Bool) = false then
          match parse_flag argument ca with
          | Except.ok ca2 => ParseResult.ok (OptionType.FLAG, ca2)
          | Except.error e => ParseResult.err e
        else
          ParseResult.err ("Option " ++ argument ++ " requires value but no value is passed")) = _
  rw [if_pos ⟨rfl, hlt⟩, hv]

/-- Behaviour of `parse_nonflag_or_flag` when the option takes a value
    but no following token exists: the missing-value error. -/
lemma parse_nonflag_or_flag_val_true_missing (argument : String) (args : List String)
    (index : Nat) (ca : CommandArgs)
    (hrv : requires_value argument = RVResult.val true)
    (hge : args.length ≤ index + 1) :
    parse_nonflag_or_flag argument args.length index args ca =
      ParseResult.err ("Option " ++ argument ++ " requires value but no value is passed") := by
  unfold parse_nonflag_or_flag
  rw [hrv]
  show (if true = true ∧ index + 1 < args.length then
          match args[index + 1]? with
          | none => ParseResult.panic
          | some v2 =>
            match parse_non_flag argument v2 ca with
            | Except.ok ca2 => ParseResult.ok (OptionType.NONFLAG, ca2)
            | Except.error e => ParseResult.err e
        else if (true : Bool) = false then
          match parse_flag argument ca with
          | Except.ok ca2 => ParseResult.ok (OptionType.FLAG, ca2)
          | Except.error e => ParseResult.err e
        else
          ParseResult.err ("Option " ++ argument ++ " requires value but no value is passed")) = _
  rw [if_neg (fun hc => absurd hc.2 (by omega)), if_neg (by decide)]

/-- Behaviour of `parse_nonflag_or_flag` on a flag option. -/
lemma parse_nonflag_or_flag_val_false (argument : String) (args : List String)
    (index : Nat) (ca : CommandArgs)
    (hrv : requires_value argument = RVResult.val false) :
    parse_nonflag_or_flag argument args.length index args ca =
      match parse_flag argument ca with
      | Except.ok ca2 => ParseResult.ok (OptionType.FLAG, ca2)
      | Except.error e => ParseResult.err e := by
  unfold parse_nonflag_or_flag
  rw [hrv]
  show (if false = true ∧ index + 1 < args.length then
          match args[index + 1]? with
          | none => ParseResult.panic
          | some v2 =>
            match parse_non_flag argument v2 ca with
            | Except.ok ca2 => ParseResult.ok (OptionType.NONFLAG, ca2)
            | Except.error e => ParseResult.err e
        else if (false : Bool) = false then
          match parse_flag argument ca with
          | Except.ok ca2 => ParseResult.ok (OptionType.FLAG, ca2)
          | Except.error e => ParseResult.err e
        else
          ParseResult.err ("Option " ++ argument ++ " requires value but no value is passed")) = _
  rw [if_neg (fun hc => by cases hc.1), if_pos rfl]

/-- Behaviour of `parse_nonflag_or_flag` on the help option. -/
lemma parse_nonflag_or_flag_helpExit (argument : String) (args : List String)
    (index : Nat) (ca : CommandArgs)
    (hrv : requires_value argument = RVResult.helpExit) :
    parse_nonflag_or_flag argument args.length index args ca = ParseResult.help := by
  unfold parse_nonflag_or_flag
  rw [hrv]

/-- Behaviour of `parse_nonflag_or_flag` on an unknown option. -/
lemma parse_nonflag_or_flag_err (argument : String) (args : List String)
    (index : Nat) (ca : CommandArgs) (e : String)
    (hrv : requires_value argument = RVResult.err e) :
    parse_nonflag_or_flag argument args.length index args ca = ParseResult.err e := by
  unfold parse_nonflag_or_flag
  rw [hrv]

/-- Processing any dash-initial token through `parse_nonflag_or_flag`
    ends in an error or in the help exit, never in success. -/
lemma parse_nonflag_or_flag_dash (argument : String) (ho : argument.data.head? = some '-')
    (args : List String) (index : Nat) (ca : CommandArgs) :
    (∃ e, parse_nonflag_or_flag argument args.length index args ca = ParseResult.err e) ∨
      parse_nonflag_or_flag argument args.length index args ca = ParseResult.help := by
  cases hrv : requires_value argument with
  | helpExit => exact Or.inr (parse_nonflag_or_flag_helpExit argument args index ca hrv)
  | err e => exact Or.inl ⟨e, parse_nonflag_or_flag_err argument args index ca e hrv⟩
  | val rv =>
    cases rv with
    | true =>
      by_cases hlt : index + 1 < args.length
      · left
        refine ⟨"Unexpected option " ++ argument, ?_⟩
        rw [parse_nonflag_or_flag_val_true_next argument args index ca args[index + 1] hrv
          (List.getElem?_eq_getElem hlt)]
        rw [parse_non_flag_dash argument ho _ ca]
      · exact Or.inl ⟨_, parse_nonflag_or_flag_val_true_missing argument args index ca hrv
          (by omega)⟩
    | false =>
      left
      refine ⟨"Unexpected flag " ++ argument, ?_⟩
      rw [parse_nonflag_or_flag_val_false argument args index ca hrv]
      rw [parse_flag_dash argument ho ca]

/-- `split` always yields at least one piece. -/
lemma splitOnChar_ne_nil (c : Char) (l : List Char) : splitOnChar c l ≠ [] := by
  cases l with
  | nil => simp [splitOnChar]
  | cons x xs =>
    unfold splitOnChar
    split_ifs
    · simp
    · cases h : splitOnChar c xs <;> simp

/-- Unfolding of one `while` iteration. -/
lemma parse_args_loop_succ (args : List String) (f index : Nat) (qp : Bool)
    (ca : CommandArgs) :
    parse_args_loop args (f + 1) index qp ca =
      match args[index]? with
      | none => ParseResult.ok ca
      | some arg =>
        match parse_args_step args index qp ca arg with
        | StepResult.next index2 qp2 ca2 => parse_args_loop args f index2 qp2 ca2
        | StepResult.abort e => ParseResult.err e
        | StepResult.helpExit => ParseResult.help
        | StepResult.panicked => ParseResult.panic := rfl

/-- Once the query is parsed, the loop pushes every remaining token (in
    order) onto `files` and succeeds. -/
lemma parse_args_loop_collect (args : List String) :
    ∀ (fuel index : Nat) (ca : CommandArgs), args.length ≤ index + fuel →
      parse_args_loop args fuel index true ca =
        ParseResult.ok { ca with files := ca.files ++ args.drop index } := by
  intro fuel
  induction fuel with
  | zero =>
    intro index ca h
    rw [Nat.add_zero] at h
    rw [List.drop_eq_nil_of_le h]
    simp [parse_args_loop]
  | succ f ih =>
    intro index ca h
    rw [parse_args_loop_succ]
    cases hx : args[index]? with
    | none =>
      have hlen : args.length ≤ index := by
        by_contra hc
        rw [List.getElem?_eq_getElem (Nat.lt_of_not_le hc)] at hx
        cases hx
      rw [List.drop_eq_nil_of_le hlen]
      simp
    | some arg =>
      obtain ⟨hlt, harg⟩ := List.getElem?_eq_some.mp hx
      show parse_args_loop args f (index + 1) true
          { ca with files := ca.files ++ [arg] } = _
      rw [ih (index + 1) _ (by omega)]
      have hdrop : args.drop index = arg :: args.drop (index + 1) := by
        rw [List.drop_eq_getElem_cons hlt, harg]
      rw [hdrop]
      simp

/-- A dash-initial token met before the query makes the step abort or
    take the help exit. -/
lemma parse_args_step_dash (args : List String) (index : Nat) (ca : CommandArgs)
    (t : String) (ho : t.data.head? = some '-') :
    (∃ e, parse_args_step args index false ca t = StepResult.abort e) ∨
      parse_args_step args index false ca t = StepResult.helpExit := by
  obtain ⟨tl, htd⟩ : ∃ tl, t.data = '-' :: tl := by
    cases htd : t.data with
    | nil => rw [htd] at ho; cases ho
    | cons c tl =>
      rw [htd] at ho
      injection ho with hch
      exact ⟨tl, by rw [hch]⟩
  by_cases hss : starts_with t "--" = true
  · -- long-option branch
    cases hsp : splitOnChar '=' tl with
    | nil => exact absurd hsp (splitOnChar_ne_nil _ _)
    | cons h0 t0 =>
      have hsplit : splitOnChar '=' t.data = ('-' :: h0) :: t0 := by
        rw [htd]
        unfold splitOnChar
        rw [if_neg (by decide), hsp]
      cases t0 with
      | nil =>
        have hstep : parse_args_step args index false ca t =
            match parse_nonflag_or_flag t args.length index args ca with
            | ParseResult.ok (OptionType.NONFLAG, ca2) => StepResult.next (index + 2) false ca2
            | ParseResult.ok (OptionType.FLAG, ca2) => StepResult.next (index + 1) false ca2
            | ParseResult.err e => StepResult.abort e
            | ParseResult.help => StepResult.helpExit
            | ParseResult.panic => StepResult.panicked := by
          simp only [parse_args_step, hss, hsplit]
          rfl
        rcases parse_nonflag_or_flag_dash t ho args index ca with ⟨e, he⟩ | he
        · left; exact ⟨e, by rw [hstep, he]⟩
        · right; rw [hstep, he]
      | cons r0 t1 =>
        cases t1 with
        | nil =>
          left
          refine ⟨"Unexpected option " ++ (⟨'-' :: h0⟩ : String), ?_⟩
          have hstep : parse_args_step args index false ca t =
              match parse_non_flag (⟨'-' :: h0⟩ : String) (⟨r0⟩ : String) ca with
              | Except.ok ca2 => StepResult.next (index + 1) false ca2
              | Except.error e => StepResult.abort e := by
            simp only [parse_args_step, hss, hsplit]
            rfl
          rw [hstep, parse_non_flag_dash (⟨'-' :: h0⟩ : String) rfl]
        | cons r1 t2 =>
          left
          refine ⟨"Option " ++ t ++ " has more than one equal sign", ?_⟩
          simp only [parse_args_step, hss, hsplit]
          rfl
  · -- short-option branch
    have hs1 : starts_with t "-" = true := by
      simp [starts_with, htd, List.isPrefixOf]
    have hstep : parse_args_step args index false ca t =
        match parse_nonflag_or_flag t args.length index args ca with
        | ParseResult.ok (OptionType.NONFLAG, ca2) => StepResult.next (index + 2) false ca2
        | ParseResult.ok (OptionType.FLAG, ca2) => StepResult.next (index + 1) false ca2
        | ParseResult.err e => StepResult.abort e
        | ParseResult.help => StepResult.helpExit
        | ParseResult.panic => StepResult.panicked := by
      simp only [parse_args_step, hss, hs1]
      rfl
    rcases parse_nonflag_or_flag_dash t ho args index ca with ⟨e, he⟩ | he
    · left; exact ⟨e, by rw [hstep, he]⟩
    · right; rw [hstep, he]

/-- A non-dash-initial token met before the query becomes the query. -/
lemma parse_args_step_positional (args : List String) (index : Nat) (ca : CommandArgs)
    (t : String) (ho : starts_with t "-" = false) :
    parse_args_step args index false ca t
      = StepResult.next (index + 1) true { ca with query := t } := by
  have hss : starts_with t "--" = false := by
    cases htd : t.data with
    | nil => simp [starts_with, htd, List.isPrefixOf]
    | cons c tl =>
      rw [starts_with, htd] at ho ⊢
      show (['-', '-'].isPrefixOf (c :: tl)) = false
      have hc : ('-' == c) = false := by
        by_contra hcc
        simp only [List.isPrefixOf, Bool.and_eq_false_iff] at ho
        rcases ho with ho | ho
        · exact hcc ho
        · simp [List.isPrefixOf] at ho
      simp [List.isPrefixOf, hc]
  simp [parse_args_step, ho, hss]

/-- `parse_nonflag_or_flag` called with the true length of the argument
    list never reaches its out-of-range branch. -/
lemma parse_nonflag_or_flag_no_panic (argument : String) (args : List String)
    (index : Nat) (ca : CommandArgs) :
    (parse_nonflag_or_flag argument args.length index args ca).isPanic = false := by
  cases hrv : requires_value argument with
  | helpExit => rw [parse_nonflag_or_flag_helpExit argument args index ca hrv]; rfl
  | err e => rw [parse_nonflag_or_flag_err argument args index ca e hrv]; rfl
  | val rv =>
    cases rv with
    | true =>
      by_cases hlt : index + 1 < args.length
      · rw [parse_nonflag_or_flag_val_true_next argument args index ca args[index + 1] hrv
          (List.getElem?_eq_getElem hlt)]
        cases hpn : parse_non_flag argument args[index + 1] ca with
        | ok ca2 => rfl
        | error e => rfl
      · rw [parse_nonflag_or_flag_val_true_missing argument args index ca hrv (by omega)]
        rfl
    | false =>
      rw [parse_nonflag_or_flag_val_false argument args index ca hrv]
      cases hpf : parse_flag argument ca with
      | ok ca2 => rfl
      | error e => rfl

/-- No step of the loop ever panics. -/
lemma parse_args_step_no_panic (args : List String) (index : Nat) (qp : Bool)
    (ca : CommandArgs) (arg : String) :
    parse_args_step args index qp ca arg ≠ StepResult.panicked := by
  unfold parse_args_step
  split_ifs with h1 h2 h3
  · simp
  · cases hsp : splitOnChar '=' arg.data with
    | nil => simp
    | cons a b =>
      cases b with
      | nil =>
        cases hp : parse_nonflag_or_flag arg args.length index args ca with
        | panic =>
          have := parse_nonflag_or_flag_no_panic arg args index ca
          rw [hp] at this
          cases this
        | ok pr => obtain ⟨ot, ca2⟩ := pr; cases ot <;> simp
        | err e => simp
        | help => simp
      | cons r c =>
        cases c with
        | nil =>
          show (match parse_non_flag (⟨a⟩ : String) (⟨r⟩ : String) ca with
                | Except.ok ca2 => StepResult.next (index + 1) qp ca2
                | Except.error e => StepResult.abort e) ≠ StepResult.panicked
          cases hpn : parse_non_flag (⟨a⟩ : String) (⟨r⟩ : String) ca with
          | ok ca2 => simp
          | error e => simp
        | cons r1 c1 => simp
  · cases hp : parse_nonflag_or_flag arg args.length index args ca with
    | panic =>
      have := parse_nonflag_or_flag_no_panic arg args index ca
      rw [hp] at this
      cases this
    | ok pr => obtain ⟨ot, ca2⟩ := pr; cases ot <;> simp
    | err e => simp
    | help => simp
  · simp

/-- The whole loop never panics. -/
lemma parse_args_loop_no_panic (args : List String) :
    ∀ (fuel index : Nat) (qp : Bool) (ca : CommandArgs),
      (parse_args_loop args fuel index qp ca).isPanic = false := by
  intro fuel
  induction fuel with
  | zero => intro _ _ _; rfl
  | succ f ih =>
    intro index qp ca
    cases hx : args[index]? with
    | none => rw [parse_args_loop_succ, hx]; rfl
    | some arg =>
      rw [parse_args_loop_succ, hx]
      show (match parse_args_step args index qp ca arg with
            | StepResult.next index2 qp2 ca2 => parse_args_loop args f index2 qp2 ca2
            | StepResult.abort e => ParseResult.err e
            | StepResult.helpExit => ParseResult.help
            | StepResult.panicked => ParseResult.panic).isPanic = false
      cases hs : parse_args_step args index qp ca arg with
      | next i2 q2 c2 => exact ih i2 q2 c2
      | abort e => rfl
      | helpExit => rfl
      | panicked => exact absurd hs (parse_args_step_no_panic args index qp ca arg)

/-- If the current token's step aborts, the loop returns that error. -/
lemma parse_args_loop_step_abort (args : List String) (f index : Nat) (qp : Bool)
    (ca : CommandArgs) (arg : String) (e : String) (hx : args[index]? = some arg)
    (hstep : parse_args_step args index qp ca arg = StepResult.abort e) :
    parse_args_loop args (f + 1) index qp ca = ParseResult.err e := by
  rw [parse_args_loop_succ, hx]
  show (match parse_args_step args index qp ca arg with
        | StepResult.next index2 qp2 ca2 => parse_args_loop args f index2 qp2 ca2
        | StepResult.abort e => ParseResult.err e
        | StepResult.helpExit => ParseResult.help
        | StepResult.panicked => ParseResult.panic) = ParseResult.err e
  rw [hstep]

/-- If the current token's step continues, the loop recurses accordingly. -/
lemma parse_args_loop_step_next (args : List String) (f index : Nat) (qp : Bool)
    (ca : CommandArgs) (arg : String) (i2 : Nat) (q2 : Bool) (c2 : CommandArgs)
    (hx : args[index]? = some arg)
    (hstep : parse_args_step args index qp ca arg = StepResult.next i2 q2 c2) :
    parse_args_loop args (f + 1) index qp ca = parse_args_loop args f i2 q2 c2 := by
  rw [parse_args_loop_succ, hx]
  show (match parse_args_step args index qp ca arg with
        | StepResult.next index2 qp2 ca2 => parse_args_loop args f index2 qp2 ca2
        | StepResult.abort e => ParseResult.err e
        | StepResult.helpExit => ParseResult.help
        | StepResult.panicked => ParseResult.panic) = _
  rw [hstep]

/-- If the current token's step hits the help exit, so does the loop. -/
lemma parse_args_loop_step_help (args : List String) (f index : Nat) (qp : Bool)
    (ca : CommandArgs) (arg : String) (hx : args[index]? = some arg)
    (hstep : parse_args_step args index qp ca arg = StepResult.helpExit) :
    parse_args_loop args (f + 1) index qp ca = ParseResult.help := by
  rw [parse_args_loop_succ, hx]
  show (match parse_args_step args index qp ca arg with
        | StepResult.next index2 qp2 ca2 => parse_args_loop args f index2 qp2 ca2
        | StepResult.abort e => ParseResult.err e
        | StepResult.helpExit => ParseResult.help
        | StepResult.panicked => ParseResult.panic) = ParseResult.help
  rw [hstep]

/-- A long-form token splitting into three or more pieces at the equal
    signs makes the step abort with the malformed-token message. -/
lemma parse_args_step_malformed (args : List String) (index : Nat) (ca : CommandArgs)
    (t : String) (hss : starts_with t "--" = true) (a b c : List Char)
    (tl : List (List Char)) (hsp : splitOnChar '=' t.data = a :: b :: c :: tl) :
    parse_args_step args index false ca t
      = StepResult.abort ("Option " ++ t ++ " has more than one equal sign") := by
  unfold parse_args_step
  rw [if_neg (by simp), if_pos hss, hsp]

/-- A token that starts with a dash has the dash as first char. -/
lemma starts_with_dash_head (q : String) (h : starts_with q "-" = true) :
    q.data.head? = some '-' := by
  rw [starts_with] at h
  rcases htd : q.data with _ | ⟨c, tl⟩
  · rw [htd] at h; simp [List.isPrefixOf] at h
  · rw [htd] at h
    have hc : '-' = c := beq_iff_eq.mp (by simpa [List.isPrefixOf] using h)
    rw [← hc]
    rfl

/-- C1: the spec claims that for every valid decimal string n, the forms
    `--after-context=n`, `-A n` and `--after-context n` (before the pattern)
    all succeed with after_context = n (symmetrically for -B).  The code
    instead rejects every one of these forms with an unexpected-option
    error, because `parse_non_flag` matches the undashed names `A` /
    `after-context` while it is handed the dashed token: this theorem
    evaluates the parser at the failing inputs. -/
theorem C1_context_options_rejected :
    parse_args ["prog", "-A", "2", "file.txt"] initCommandArgs
        = ParseResult.err "Unexpected option -A" ∧
    parse_args ["prog", "--after-context", "2", "file.txt"] initCommandArgs
        = ParseResult.err "Unexpected option --after-context" ∧
    parse_args ["prog", "--after-context=2", "file.txt"] initCommandArgs
        = ParseResult.err "Unexpected option --after-context" ∧
    parse_args ["prog", "-B", "3", "file.txt"] initCommandArgs
        = ParseResult.err "Unexpected option -B" ∧
    parse_args ["prog", "--before-context", "3", "file.txt"] initCommandArgs
        = ParseResult.err "Unexpected option --before-context" ∧
    parse_args ["prog", "--before-context=3", "file.txt"] initCommandArgs
        = ParseResult.err "Unexpected option --before-context" :=
  ⟨by decide, by decide, by decide, by decide, by decide, by decide⟩

/-- C2: the spec claims `-i` and `--ignore-case` both succeed and set
    ignore_case, equivalently and idempotently.  The code rejects both
    forms (with distinct messages), because `parse_flag` matches the
    undashed names `i` / `ignore-case` while it is handed the dashed
    token: this theorem evaluates the parser at the failing inputs. -/
theorem C2_ignore_case_rejected :
    parse_args ["prog", "-i"] initCommandArgs
        = ParseResult.err "Unexpected flag -i" ∧
    parse_args ["prog", "--ignore-case"] initCommandArgs
        = ParseResult.err "Unexpected flag --ignore-case" ∧
    mainOutcome ["prog", "-i", "needle", "a.txt"]
        = MainOutcome.exitErr "Unexpected flag -i" :=
  ⟨by decide, by decide, by decide⟩

/-- C3 counterexample: for ["prog", "needle", "-A", "2", "file.txt"] the
    claim predicts query "needle", files ["file.txt"], after_context 2;
    the parser instead swallows "-A" and "2" as file names and leaves
    after_context at 0, so the claimed result is not produced. -/
theorem C3_counterexample :
    parse_args ["prog", "needle", "-A", "2", "file.txt"] initCommandArgs
      = ParseResult.ok
          { files := ["-A", "2", "file.txt"], query := "needle",
            after_context := 0, before_context := 0, ignore_case := false } ∧
    parse_args ["prog", "needle", "-A", "2", "file.txt"] initCommandArgs
      ≠ ParseResult.ok
          { files := ["file.txt"], query := "needle",
            after_context := 2, before_context := 0, ignore_case := false } :=
  ⟨by decide, by decide⟩

/-- C3 amended: an option token appearing after the pattern token is NOT
    recognized as an option; it and every later token are collected as
    file names, so parsing ["prog", "needle", "-A", "2", "file.txt"]
    succeeds with files ["-A", "2", "file.txt"] and after_context 0. -/
theorem C3_amended_options_after_pattern_are_files :
    parse_args ["prog", "needle", "-A", "2", "file.txt"] initCommandArgs
      = ParseResult.ok
          { files := ["-A", "2", "file.txt"], query := "needle",
            after_context := 0, before_context := 0, ignore_case := false } := by
  decide

/-- C4 counterexample: the claim says the printed help text contains all
    four documented options, but the help text never mentions -h or
    --help in any form. -/
theorem C4_counterexample :
    str_contains help_string "-h" = false ∧
    str_contains help_string "--help" = false :=
  ⟨by decide, by decide⟩

/-- C4 amended: on ["prog", "-h"] the program prints the help text and
    exits 0 before consuming any further tokens (for any continuation of
    the argument list), and the help text contains three of the four
    documented options (-i and --ignore-case, -A and --after-context,
    -B and --before-context) with their default values, but omits both
    -h and --help. -/
theorem C4_amended_help_contents :
    (∀ rest : List String,
        parse_args ("prog" :: "-h" :: rest) initCommandArgs = ParseResult.help) ∧
    mainOutcome ["prog", "-h"] = MainOutcome.exitHelp ∧
    str_contains help_string "-i" = true ∧
    str_contains help_string "--ignore-case" = true ∧
    str_contains help_string "-A" = true ∧
    str_contains help_string "--after-context" = true ∧
    str_contains help_string "-B" = true ∧
    str_contains help_string "--before-context" = true ∧
    str_contains help_string "(default false)" = true ∧
    str_contains help_string "(default 0)" = true ∧
    str_contains help_string "--help" = false := by
  refine ⟨fun rest => ?_, by decide, by decide, by decide, by decide, by decide,
    by decide, by decide, by decide, by decide, by decide⟩
  have hlen : ("prog" :: "-h" :: rest).length = rest.length + 1 + 1 := by simp
  have hx : ("prog" :: "-h" :: rest)[1]? = some "-h" := by simp
  have hstep : parse_args_step ("prog" :: "-h" :: rest) 1 false initCommandArgs "-h"
      = StepResult.helpExit := rfl
  rw [parse_args, hlen]
  exact parse_args_loop_step_help _ _ _ _ _ _ hx hstep

/-- C5 counterexample: in ["prog", "needle", "-A"] the value-requiring
    option token "-A" is the final token, yet parsing succeeds ("-A" is
    collected as a file) and main takes the success path, not exit 1. -/
theorem C5_counterexample :
    parse_args ["prog", "needle", "-A"] initCommandArgs
      = ParseResult.ok
          { files := ["-A"], query := "needle",
            after_context := 0, before_context := 0, ignore_case := false } ∧
    mainOutcome ["prog", "needle", "-A"]
      = MainOutcome.success
          { files := ["-A"], query := "needle",
            after_context := 0, before_context := 0, ignore_case := false } :=
  ⟨by decide, by decide⟩

/-- C5 amended: when a value-requiring option token is the final token
    and is reached by the parser before the pattern token (as in
    ["prog", t]), parsing fails with the missing-value error naming that
    token and main exits 1 with that message on the error stream. -/
theorem C5_amended_missing_value (t : String)
    (h : requires_value t = RVResult.val true) :
    parse_args ["prog", t] initCommandArgs
        = ParseResult.err ("Option " ++ t ++ " requires value but no value is passed") ∧
    mainOutcome ["prog", t]
        = MainOutcome.exitErr ("Option " ++ t ++ " requires value but no value is passed") := by
  rcases requires_value_val_true t h with rfl | rfl | rfl | rfl <;>
    exact ⟨by decide, by decide⟩

/-- C5 witness: the amended claim at the concrete token "-A". -/
theorem C5_amended_missing_value_witness :
    parse_args ["prog", "-A"] initCommandArgs
        = ParseResult.err "Option -A requires value but no value is passed" ∧
    mainOutcome ["prog", "-A"]
        = MainOutcome.exitErr "Option -A requires value but no value is passed" :=
  C5_amended_missing_value "-A" (by decide)

/-- C6: any token that starts with `--` and contains more than one equal
    sign (split into at least three pieces) makes parsing fail
    immediately with the malformed-token message, whatever the option
    name and whatever follows. -/
theorem C6_multiple_equal_signs (t : String) (rest : List String) (ca : CommandArgs)
    (hss : starts_with t "--" = true)
    (hsplit : 3 ≤ (splitOnChar '=' t.data).length) :
    parse_args ("prog" :: t :: rest) ca
      = ParseResult.err ("Option " ++ t ++ " has more than one equal sign") := by
  rcases hsp : splitOnChar '=' t.data with _ | ⟨a, _ | ⟨b, _ | ⟨c, tl⟩⟩⟩
  · rw [hsp] at hsplit; simp at hsplit
  · rw [hsp] at hsplit; simp at hsplit
  · rw [hsp] at hsplit; simp at hsplit
  · have hstep := parse_args_step_malformed ("prog" :: t :: rest) 1 ca t hss a b c tl hsp
    have hlen : ("prog" :: t :: rest).length = rest.length + 1 + 1 := by simp
    have hx : ("prog" :: t :: rest)[1]? = some t := by simp
    rw [parse_args, hlen]
    exact parse_args_loop_step_abort _ _ _ _ _ _ _ hx hstep

/-- C6 witness: the malformed-token error at "--foo=bar=baz". -/
theorem C6_multiple_equal_signs_witness :
    parse_args ["prog", "--foo=bar=baz"] initCommandArgs
      = ParseResult.err "Option --foo=bar=baz has more than one equal sign" :=
  C6_multiple_equal_signs "--foo=bar=baz" [] initCommandArgs (by decide) (by decide)

/-- C7 counterexample: parsing ["prog", "q", "-x"] succeeds with files
    ["-x"], although "-x" is an option-form token (it starts with `-`);
    the claim predicts files would contain only non-option tokens, i.e.
    be empty here. -/
theorem C7_counterexample :
    parse_args ["prog", "q", "-x"] initCommandArgs
      = ParseResult.ok
          { files := ["-x"], query := "q",
            after_context := 0, before_context := 0, ignore_case := false } ∧
    starts_with "-x" "-" = true ∧
    parse_args ["prog", "q", "-x"] initCommandArgs
      ≠ ParseResult.ok
          { files := [], query := "q",
            after_context := 0, before_context := 0, ignore_case := false } :=
  ⟨by decide, by decide, by decide⟩

/-- C7 amended: whenever parsing succeeds, either there were no tokens
    after the program name (query stays "" and files []), or the first
    argument token is a non-option token, becomes the query, and files
    consists of ALL tokens after it in order, option-looking or not. -/
theorem C7_amended_success_shape (args : List String) (res : CommandArgs)
    (h : parse_args args initCommandArgs = ParseResult.ok res) :
    (args.length ≤ 1 ∧ res = initCommandArgs) ∨
    (∃ a0 q rest, args = a0 :: q :: rest ∧ starts_with q "-" = false ∧
        res.query = q ∧ res.files = rest) := by
  cases args with
  | nil =>
    left
    refine ⟨by simp, ?_⟩
    have h2 : ParseResult.ok initCommandArgs = ParseResult.ok res := h
    injection h2 with h3
    exact h3.symm
  | cons a0 args2 =>
    cases args2 with
    | nil =>
      left
      refine ⟨by simp, ?_⟩
      have h2 : ParseResult.ok initCommandArgs = ParseResult.ok res := h
      injection h2 with h3
      exact h3.symm
    | cons q rest =>
      right
      refine ⟨a0, q, rest, rfl, ?_⟩
      have hlen : (a0 :: q :: rest).length = rest.length + 1 + 1 := by simp
      have hx : (a0 :: q :: rest)[1]? = some q := by simp
      cases hsw : starts_with q "-" with
      | true =>
        exfalso
        have ho := starts_with_dash_head q hsw
        rcases parse_args_step_dash (a0 :: q :: rest) 1 initCommandArgs q ho with ⟨e, he⟩ | he
        · have hres : parse_args (a0 :: q :: rest) initCommandArgs = ParseResult.err e := by
            rw [parse_args, hlen]
            exact parse_args_loop_step_abort _ _ _ _ _ _ _ hx he
          rw [hres] at h
          cases h
        · have hres : parse_args (a0 :: q :: rest) initCommandArgs = ParseResult.help := by
            rw [parse_args, hlen]
            exact parse_args_loop_step_help _ _ _ _ _ _ hx he
          rw [hres] at h
          cases h
      | false =>
        have hstep := parse_args_step_positional (a0 :: q :: rest) 1 initCommandArgs q hsw
        have hloop : parse_args (a0 :: q :: rest) initCommandArgs
            = parse_args_loop (a0 :: q :: rest) (rest.length + 1) 2 true
                { initCommandArgs with query := q } := by
          rw [parse_args, hlen]
          exact parse_args_loop_step_next _ _ _ _ _ _ _ _ _ hx hstep
        rw [hloop, parse_args_loop_collect _ _ _ _
          (by simp only [List.length_cons]; omega)] at h
        injection h with h2
        refine ⟨rfl, ?_, ?_⟩
        · rw [← h2]
        · rw [← h2]
          show ([] : List String) ++ (a0 :: q :: rest).drop 2 = rest
          rfl

/-- C7 witness: the amended claim applied at ["prog", "q", "-x"]. -/
theorem C7_amended_success_shape_witness :
    ((["prog", "q", "-x"] : List String).length ≤ 1 ∧
      ({ files := ["-x"], query := "q", after_context := 0,
         before_context := 0, ignore_case := false } : CommandArgs) = initCommandArgs) ∨
    (∃ a0 q rest, (["prog", "q", "-x"] : List String) = a0 :: q :: rest ∧
        starts_with q "-" = false ∧
        ({ files := ["-x"], query := "q", after_context := 0,
           before_context := 0, ignore_case := false } : CommandArgs).query = q ∧
        ({ files := ["-x"], query := "q", after_context := 0,
           before_context := 0, ignore_case := false } : CommandArgs).files = rest) :=
  C7_amended_success_shape ["prog", "q", "-x"] _ (by decide)

/-- C8 counterexample: an argument list of only option tokens does not
    succeed with query "" as claimed; it fails with an unexpected-flag
    error instead. -/
theorem C8_counterexample :
    parse_args ["prog", "--ignore-case"] initCommandArgs
      = ParseResult.err "Unexpected flag --ignore-case" ∧
    parse_args ["prog", "--ignore-case"] initCommandArgs
      ≠ ParseResult.ok initCommandArgs :=
  ⟨by decide, by decide⟩

/-- C8 amended: parsing just the program name succeeds with query ""
    and files [] and main takes the success path; the mandatory PATTERN
    of the usage line is never validated as present.  (Option-only lists
    fail, but with option errors, never a missing-pattern error.) -/
theorem C8_amended_no_pattern_validation :
    parse_args ["prog"] initCommandArgs = ParseResult.ok initCommandArgs ∧
    mainOutcome ["prog"] = MainOutcome.success initCommandArgs ∧
    initCommandArgs.query = "" ∧
    initCommandArgs.files = [] :=
  ⟨by decide, by decide, rfl, rfl⟩

/-- C9: when a value-requiring option has a following token, that token
    is unconditionally passed to `parse_non_flag` as the value, whatever
    its shape (so it is never processed as an option itself), and the
    missing-value error arises exactly when the option is the final
    token; on ["prog", "-A", "-i"] the error is about "-A", showing
    "-i" was never treated as a flag. -/
theorem C9_lookahead_unconditional :
    (∀ (argument : String) (args : List String) (index : Nat) (ca : CommandArgs)
        (v : String),
        requires_value argument = RVResult.val true → args[index + 1]? = some v →
        parse_nonflag_or_flag argument args.length index args ca =
          match parse_non_flag argument v ca with
          | Except.ok ca2 => ParseResult.ok (OptionType.NONFLAG, ca2)
          | Except.error e => ParseResult.err e) ∧
    (∀ (argument : String) (args : List String) (index : Nat) (ca : CommandArgs),
        requires_value argument = RVResult.val true → args.length ≤ index + 1 →
        parse_nonflag_or_flag argument args.length index args ca =
          ParseResult.err
            ("Option " ++ argument ++ " requires value but no value is passed")) ∧
    parse_args ["prog", "-A", "-i"] initCommandArgs
      = ParseResult.err "Unexpected option -A" := by
  refine ⟨?_, ?_, by decide⟩
  · intro argument args index ca v hrv hv
    exact parse_nonflag_or_flag_val_true_next argument args index ca v hrv hv
  · intro argument args index ca hrv hge
    exact parse_nonflag_or_flag_val_true_missing argument args index ca hrv hge

/-- C9 witness: the two quantified parts applied at concrete inputs,
    the lookahead "-i" being consumed as the value of "-A". -/
theorem C9_lookahead_unconditional_witness :
    parse_nonflag_or_flag "-A" (["prog", "-A", "-i"] : List String).length 1
        ["prog", "-A", "-i"] initCommandArgs
      = (match parse_non_flag "-A" "-i" initCommandArgs with
         | Except.ok ca2 => ParseResult.ok (OptionType.NONFLAG, ca2)
         | Except.error e => ParseResult.err e) ∧
    parse_nonflag_or_flag "-A" (["prog", "-A"] : List String).length 1
        ["prog", "-A"] initCommandArgs
      = ParseResult.err ("Option " ++ "-A" ++ " requires value but no value is passed") :=
  ⟨C9_lookahead_unconditional.1 "-A" ["prog", "-A", "-i"] 1 initCommandArgs "-i"
      (by decide) (by decide),
   C9_lookahead_unconditional.2.1 "-A" ["prog", "-A"] 1 initCommandArgs
      (by decide) (by decide)⟩

/-- C10: the lookahead args[index + 1] is only read under the guard
    index + 1 < args.len(), so for every argument list the parser's
    indexing stays in bounds: the out-of-range (panic) branch of the
    embedding is unreachable. -/
theorem C10_indexing_in_bounds (args : List String) (ca : CommandArgs) :
    (parse_args args ca).isPanic = false :=
  parse_args_loop_no_panic args args.length 1 false ca

/-- C10 witness: the in-bounds theorem instantiated at a concrete list
    that exercises the lookahead read. -/
theorem C10_indexing_in_bounds_witness :
    (parse_args ["prog", "-A", "2"] initCommandArgs).isPanic = false :=
  C10_indexing_in_bounds ["prog", "-A", "2"] initCommandArgs

end Rgrep
